import Mathlib

/-!
Verification development for the BiteWise receipt-parsing pipeline and the
profile/accessibility frontend.

The OCR-text-to-receipt parser lives in `backend/gemini_service.py`, which is
not present among the source files; only its documentation
(`OCR_IMPROVEMENTS.md`) and the spec describe it.  The parser definitions
below are therefore modelled from the spec, faithfully to its words.  The
frontend definitions (profile page name editing, accessibility toolbar
toggles) are embedded directly from `frontend/app/profile/page.tsx` and the
accessibility toolbar component.

Currency amounts are modelled as exact integer counts of cents (ℤ): the
parser only ever produces amounts with at most two decimal digits, so this
representation is exact (e.g. $9.48 is the integer 948).
-/

/-! ### Character and list utilities used by the parser model -/

/-- Whitespace test used for normalization and the blank-input check. -/
def isWs (c : Char) : Bool :=
  c = ' ' || c = '\t' || c = '\n' || c = '\r'

/-- The character list of a string. -/
def toChars (s : String) : List Char := s.data

/-- Split a character list into lines at newline characters. -/
def splitOnNl : List Char → List (List Char)
  | [] => [[]]
  | c :: rest =>
    match splitOnNl rest with
    | [] => [[]]
    | h :: t => if c = '\n' then [] :: h :: t else (c :: h) :: t

/-- Trim leading and trailing whitespace from a character list. -/
def trimChars (l : List Char) : List Char :=
  ((l.dropWhile isWs).reverse.dropWhile isWs).reverse

/-- Modelled from the spec: the Text Normalizer stage of
`parse_ocr_text_to_receipt` (missing `backend/gemini_service.py`): split the
raw OCR text into lines, trim each line, and drop empty lines. -/
def normLines (l : List Char) : List (List Char) :=
  ((splitOnNl l).map trimChars).filter (fun x => !x.isEmpty)

/-- Split a character list into whitespace-separated words.
`acc` holds the characters of the current word in reverse. -/
def wordsAux (acc : List Char) : List Char → List (List Char)
  | [] => if acc.isEmpty then [] else [acc.reverse]
  | c :: rest =>
    if isWs c then
      if acc.isEmpty then wordsAux [] rest
      else acc.reverse :: wordsAux [] rest
    else wordsAux (c :: acc) rest

/-- The whitespace-separated tokens of a line. -/
def tokensOf (l : List Char) : List (List Char) := wordsAux [] l

/-- Lowercase a single ASCII letter, leaving other characters unchanged. -/
def lowerC (c : Char) : Char :=
  if 'A' ≤ c && c ≤ 'Z' then Char.ofNat (c.toNat + 32) else c

/-- Lowercase every character of a list. -/
def lowerL (l : List Char) : List Char := l.map lowerC

/-- Test whether `pat` occurs at the start of the second list. -/
def leadsWith : List Char → List Char → Bool
  | [], _ => true
  | _ :: _, [] => false
  | a :: as, b :: bs => a = b && leadsWith as bs

/-- Test whether `pat` occurs as a contiguous sublist. -/
def hasSub (pat : List Char) : List Char → Bool
  | [] => pat.isEmpty
  | c :: rest => leadsWith pat (c :: rest) || hasSub pat rest

/-- Nonempty sequence of decimal digits. -/
def isDigits (t : List Char) : Bool := !t.isEmpty && t.all Char.isDigit

/-- Numeric value of a list of decimal digits. -/
def digitsToNat (l : List Char) : Nat :=
  l.foldl (fun a c => a * 10 + (c.toNat - 48)) 0

/-! ### Data model -/

/-- Modelled from the spec: a LineItem of the missing
`backend/gemini_service.py` — name (cleaned), quantity (positive integer,
defaults to 1), unit price and line total as decimal currency values. -/
structure LineItem where
  name : String
  quantity : Nat
  unitPrice : ℤ
  lineTotal : ℤ
deriving DecidableEq

/-- Modelled from the spec: a ReceiptRecord of the missing
`backend/gemini_service.py` — merchant name, ordered items, total amount,
and date (the current date is passed in explicitly as `date`). -/
structure ReceiptRecord where
  merchant : String
  items : List LineItem
  total : ℤ
  date : String
deriving DecidableEq

/-! ### Price and quantity token parsing -/

/-- Modelled from the spec: numeric token recognition of the missing
`backend/gemini_service.py` — optional currency symbol, thousands
separators, optional decimal point with up to two digits.  The value is
returned in cents. -/
def parsePrice (tok0 : List Char) : Option ℤ :=
  let tok1 := match tok0 with
    | '$' :: r => r
    | _ => tok0
  let tok := tok1.filter (fun c => c ≠ ',')
  let ip := tok.takeWhile (fun c => c ≠ '.')
  let fp := tok.dropWhile (fun c => c ≠ '.')
  match fp with
  | [] => if isDigits ip then some ((digitsToNat ip : ℤ) * 100) else none
  | _ :: frac =>
    if isDigits ip ∧ isDigits frac ∧ frac.length ≤ 2 then
      some ((digitsToNat ip : ℤ) * 100 +
        (digitsToNat frac : ℤ) * 10 ^ (2 - frac.length))
    else none

/-- Parse a token as a positive integer quantity. -/
def qtyOfTok (t : List Char) : Option Nat :=
  if isDigits t then
    let n := digitsToNat t
    if 1 ≤ n then some n else none
  else none

/-- Modelled from the spec: the price-range validation of the missing
`backend/gemini_service.py` — unit/line prices outside [0.10, 500.00] are
rejected as item candidates ($0.10 is 10 cents, $500.00 is 50000
cents). -/
def priceOk (p : ℤ) : Prop := 10 ≤ p ∧ p ≤ 50000

instance (p : ℤ) : Decidable (priceOk p) :=
  inferInstanceAs (Decidable (10 ≤ p ∧ p ≤ 50000))

/-- A quantity-like token: digits, or digits followed by `x`/`X`. -/
def isQtyTok (t : List Char) : Bool :=
  isDigits t ||
    (match t.reverse with
     | c :: rest => (c = 'x' || c = 'X') && isDigits rest.reverse
     | [] => false)

/-- Join tokens with single spaces. -/
def joinSpace : List (List Char) → List Char
  | [] => []
  | [t] => t
  | t :: ts => t ++ ' ' :: joinSpace ts

/-- Modelled from the spec: name cleaning of the missing
`backend/gemini_service.py` — strip leading/trailing quantity tokens,
strip currency symbols, collapse internal whitespace, truncate to 50
characters. -/
def cleanName (toks : List (List Char)) : List Char :=
  let t1 := toks.dropWhile isQtyTok
  let t2 := (t1.reverse.dropWhile isQtyTok).reverse
  let t3 := (t2.map (fun t => t.filter (fun c => c ≠ '$'))).filter
    (fun t => !t.isEmpty)
  (joinSpace t3).take 50

/-! ### The three line-item layouts -/

/-- Modelled from the spec: layout 1 of the missing
`backend/gemini_service.py` item matcher —
`<quantity> <name> <unit price> <line total>`. -/
def pattern1 (toks : List (List Char)) : Option LineItem :=
  match toks with
  | [] => none
  | q :: rest =>
    match qtyOfTok q, rest.reverse with
    | some n, ltTok :: upTok :: nameRev =>
      if nameRev.isEmpty then none
      else
        match parsePrice upTok, parsePrice ltTok with
        | some u, some t =>
          if priceOk u ∧ priceOk t then
            some ⟨String.mk (cleanName nameRev.reverse), n, u, t⟩
          else none
        | _, _ => none
    | _, _ => none

/-- Modelled from the spec: layout 2 of the missing
`backend/gemini_service.py` item matcher — `<name> <price>`, quantity
implied as 1, line total equals the price.  The name must not begin with a
quantity token, so that lines of the quantity-bearing layouts are left to
those layouts. -/
def pattern2 (toks : List (List Char)) : Option LineItem :=
  match toks.reverse with
  | [] => none
  | pTok :: nameRev =>
    match nameRev.reverse with
    | [] => none
    | n0 :: nrest =>
      if isQtyTok n0 then none
      else
        match parsePrice pTok with
        | some p =>
          if priceOk p then
            some ⟨String.mk (cleanName (n0 :: nrest)), 1, p, p⟩
          else none
        | none => none

/-- Extract a leading quantity expressed with an `x` separator: either the
two tokens `<digits>` `x` or the single token `<digits>x`. -/
def splitQty (toks : List (List Char)) : Option (Nat × List (List Char)) :=
  match toks with
  | [] => none
  | t1 :: rest =>
    match qtyOfTok t1, rest with
    | some n, x :: rest2 =>
      if x = ['x'] ∨ x = ['X'] then some (n, rest2) else none
    | some _, [] => none
    | none, _ =>
      match t1.reverse with
      | c :: dr =>
        if c = 'x' ∨ c = 'X' then
          match qtyOfTok dr.reverse with
          | some n => some (n, rest)
          | none => none
        else none
      | [] => none

/-- Modelled from the spec: layout 3 of the missing
`backend/gemini_service.py` item matcher — `<quantity> x <name> <price>`,
line total derived as quantity × price. -/
def pattern3 (toks : List (List Char)) : Option LineItem :=
  match splitQty toks with
  | none => none
  | some (n, rest) =>
    match rest.reverse with
    | [] => none
    | pTok :: nameRev =>
      if nameRev.isEmpty then none
      else
        match parsePrice pTok with
        | some p =>
          if priceOk p then
            some ⟨String.mk (cleanName nameRev.reverse), n, p, (n : ℤ) * p⟩
          else none
        | none => none

/-- Modelled from the spec: the Line-Item Pattern Matcher of the missing
`backend/gemini_service.py` — the three layouts are tried in priority
order; the first that successfully parses wins; a line matching none
yields no LineItem. -/
def parseItemLine (line : List Char) : Option LineItem :=
  let toks := tokensOf line
  match pattern1 toks with
  | some it => some it
  | none =>
    match pattern2 toks with
    | some it => some it
    | none => pattern3 toks

/-! ### Total extraction -/

/-- Modelled from the spec: the case-insensitive total markers of the
missing `backend/gemini_service.py`. -/
def totalMarkers : List (List Char) :=
  [toChars "total to pay", toChars "grand total",
   toChars "total amount", toChars "amount due"]

/-- Modelled from the spec: a line matches a recognized total marker
(case-insensitive), or begins with "TOTAL". -/
def isTotalLine (line : List Char) : Bool :=
  let low := lowerL line
  totalMarkers.any (fun m => hasSub m low) || leadsWith (toChars "total") low

/-- The trailing numeric value of a line: the last token that parses as a
number (accepting thousands separators). -/
def trailingNumber (line : List Char) : Option ℤ :=
  (tokensOf line).reverse.findSome? parsePrice

/-- Modelled from the spec: the per-line step of the Total Extractor of the
missing `backend/gemini_service.py` — a marker line contributes its
trailing numeric value. -/
def extractLineTotal (line : List Char) : Option ℤ :=
  if isTotalLine line then trailingNumber line else none

/-- Modelled from the spec: the Total Extractor of the missing
`backend/gemini_service.py` — scan lines in order, first match wins. -/
def extractTotal (ls : List (List Char)) : Option ℤ :=
  ls.findSome? extractLineTotal

/-! ### Merchant identification -/

/-- A line made only of digits, whitespace and numeric/date punctuation —
excluded from merchant candidates. -/
def looksNumericLine (line : List Char) : Bool :=
  line.all (fun c =>
    c.isDigit || isWs c || c = '.' || c = ',' || c = '/' || c = '-' ||
    c = ':' || c = '$')

/-- Modelled from the spec: plausibility test of the Merchant Identifier of
the missing `backend/gemini_service.py` — excludes lines that are pure
numbers/dates or match a total or item-price pattern. -/
def plausibleMerchant (line : List Char) : Bool :=
  !looksNumericLine line && !isTotalLine line && (parseItemLine line).isNone

/-- Modelled from the spec: the Merchant Identifier of the missing
`backend/gemini_service.py` — scan the first few non-empty lines for the
first plausible store-name line, defaulting to "Unknown Store". -/
def merchantOf (ls : List (List Char)) : List Char :=
  match (ls.take 3).filter plausibleMerchant with
  | [] => toChars "Unknown Store"
  | m :: _ => m

/-! ### Assembly and fallback policy -/

/-- Sum of the line totals of a list of items. -/
def sumTotals (items : List LineItem) : ℤ :=
  (items.map (fun it => it.lineTotal)).sum

/-- Modelled from the spec: the hardcoded sample ReceiptRecord of the
missing `backend/gemini_service.py` fallback path — merchant
"Sample Store", two fixed sample items ($5.99 and $3.49), total $9.48
(948 cents), date defaulting to today. -/
def sampleReceipt (today : String) : ReceiptRecord :=
  ⟨"Sample Store",
   [⟨"Sample Item 1", 1, 599, 599⟩, ⟨"Sample Item 2", 1, 349, 349⟩],
   948, today⟩

/-- Modelled from the spec: the normal assembly path of the missing
`backend/gemini_service.py` — merchant from the heuristic (defaulting to
"Unknown Store"), items from the matcher, total from the extractor or the
sum of item line totals, date defaulting to today. -/
def assembleRecord (ls : List (List Char)) (today : String) : ReceiptRecord :=
  ⟨String.mk (merchantOf ls), ls.filterMap parseItemLine,
   (extractTotal ls).getD (sumTotals (ls.filterMap parseItemLine)), today⟩

/-- Modelled from the spec: `parse_ocr_text_to_receipt` of the missing
`backend/gemini_service.py` — empty/blank input, or zero LineItems and no
recognizable total, short-circuits to the hardcoded sample record;
otherwise the record is assembled with defaults.  The current date is
passed in as `today`. -/
def parse_ocr_text_to_receipt (text today : String) : ReceiptRecord :=
  if text.data.all isWs then sampleReceipt today
  else if ((normLines text.data).filterMap parseItemLine).isEmpty
      && (extractTotal (normLines text.data)).isNone then
    sampleReceipt today
  else assembleRecord (normLines text.data) today

/-! ### Frontend: profile page (from `frontend/app/profile/page.tsx`) -/

/-- The profile data shape of `frontend/app/profile/page.tsx`, with the
dollar amount `totalSpent` in cents. -/
structure UserProfile where
  name : String
  email : String
  allergens : List String
  dietaryPrefs : List String
  totalSpent : ℤ
  totalReceipts : Nat
  healthScoreAvg : Nat
deriving DecidableEq

/-- `mockProfile` of `frontend/app/profile/page.tsx`. -/
def mockProfile : UserProfile :=
  ⟨"John Doe", "johndoe@example.com", ["Peanuts", "Dairy"],
   ["Low Sugar", "High Protein"], 41234, 34, 70⟩

/-- The component state of `ProfilePage`: the `profile`, `isEditing` and
`nameInput` `useState` hooks. -/
structure ProfilePageState where
  profile : UserProfile
  isEditing : Bool
  nameInput : String
deriving DecidableEq

/-- The keys distinguished by `handleKeyDown` in
`frontend/app/profile/page.tsx`. -/
inductive EditKey
  | enter
  | escape
  | other
deriving DecidableEq

/-- `handleKeyDown` of `frontend/app/profile/page.tsx`.  On Enter it runs
`setProfile({ ...profile, name: nameInput || 'John Doe' })` — among
strings only the empty string is falsy in JavaScript, so the default
applies exactly when `nameInput` is empty — and leaves editing mode.  On
Escape it resets `nameInput` and leaves editing mode. -/
def handleKeyDown (k : EditKey) (s : ProfilePageState) : ProfilePageState :=
  match k with
  | .enter =>
    { s with
      profile :=
        { s.profile with
          name := if s.nameInput = "" then "John Doe" else s.nameInput }
      isEditing := false }
  | .escape => { s with nameInput := s.profile.name, isEditing := false }
  | .other => s

/-- The Save button `onClick` of `frontend/app/profile/page.tsx`: the same
`setProfile({ ...profile, name: nameInput || 'John Doe' })` update. -/
def saveClick (s : ProfilePageState) : ProfilePageState :=
  { s with
    profile :=
      { s.profile with
        name := if s.nameInput = "" then "John Doe" else s.nameInput }
    isEditing := false }

/-! ### Frontend: accessibility toolbar (`AccessibilityToolbar`) -/

/-- The document state the toolbar manipulates: presence of the
`large-text` class on `document.body` and of the `dark` class on
`document.documentElement`. -/
structure DomState where
  bodyLargeText : Bool
  htmlDark : Bool
deriving DecidableEq

/-- The component state of `AccessibilityToolbar`: the `largeText` and
`darkMode` `useState` hooks. -/
structure ToolbarState where
  largeText : Bool
  darkMode : Bool
deriving DecidableEq

/-- The world visible to the toolbar: component state, the two
`localStorage` entries (absent entries are `none`), and the document
classes. -/
structure BrowserWorld where
  comp : ToolbarState
  lsLargeText : Option String
  lsDarkMode : Option String
  dom : DomState
deriving DecidableEq

/-- JavaScript `String(b)` on a boolean. -/
def stringOfBool (b : Bool) : String := if b then "true" else "false"

/-- `applyPreferences` of `AccessibilityToolbar`: adds or removes the
`large-text` class on the body and the `dark` class on the document
element, so the resulting document state is exactly the pair of flags. -/
def applyPreferences (large dark : Bool) (_d : DomState) : DomState :=
  ⟨large, dark⟩

/-- `toggleLargeText` of `AccessibilityToolbar`: negates the state, writes
`String(newValue)` to `localStorage`, and applies preferences with the new
value and the current `darkMode` state. -/
def toggleLargeText (w : BrowserWorld) : BrowserWorld :=
  let newValue := !w.comp.largeText
  ⟨⟨newValue, w.comp.darkMode⟩,
   some (stringOfBool newValue), w.lsDarkMode,
   applyPreferences newValue w.comp.darkMode w.dom⟩

/-- `toggleDarkMode` of `AccessibilityToolbar`: negates the state, writes
`String(newValue)` to `localStorage`, and applies preferences with the
current `largeText` state and the new value. -/
def toggleDarkMode (w : BrowserWorld) : BrowserWorld :=
  let newValue := !w.comp.darkMode
  ⟨⟨w.comp.largeText, newValue⟩,
   w.lsLargeText, some (stringOfBool newValue),
   applyPreferences w.comp.largeText newValue w.dom⟩

/-- A world is synchronized when the `localStorage` entries hold the string
forms of the component state and the document classes match the component
state — the situation after the mount effect and after every toggle. -/
def synced (w : BrowserWorld) : Prop :=
  w.lsLargeText = some (stringOfBool w.comp.largeText) ∧
  w.lsDarkMode = some (stringOfBool w.comp.darkMode) ∧
  w.dom = ⟨w.comp.largeText, w.comp.darkMode⟩

/-! ### Helper lemmas -/

/-- A list all of whose elements satisfy `p` drops entirely. -/
theorem dropWhile_eq_nil_of_all (p : Char → Bool) (l : List Char)
    (h : l.all p = true) : l.dropWhile p = [] := by
  induction l with
  | nil => rfl
  | cons c rest ih =>
    simp only [List.all_cons, Bool.and_eq_true] at h
    simp [List.dropWhile_cons, h.1, ih h.2]

/-- Trimming an all-whitespace line yields the empty line. -/
theorem trimChars_eq_nil_of_all (l : List Char) (h : l.all isWs = true) :
    trimChars l = [] := by
  unfold trimChars
  rw [dropWhile_eq_nil_of_all isWs l h]
  rfl

/-- The line splitter never produces the empty list of lines. -/
theorem splitOnNl_ne_nil (l : List Char) : splitOnNl l ≠ [] := by
  cases l with
  | nil => simp [splitOnNl]
  | cons c rest =>
    unfold splitOnNl
    cases splitOnNl rest with
    | nil => simp
    | cons h t =>
      by_cases hc : c = '\n' <;> simp [hc]

/-- Splitting an all-whitespace text yields all-whitespace lines. -/
theorem splitOnNl_all_ws (l : List Char) (h : l.all isWs = true) :
    (splitOnNl l).all (fun x => x.all isWs) = true := by
  induction l with
  | nil => rfl
  | cons c rest ih =>
    simp only [List.all_cons, Bool.and_eq_true] at h
    have ih2 := ih h.2
    unfold splitOnNl
    cases hs : splitOnNl rest with
    | nil => rfl
    | cons hd tl =>
      rw [hs] at ih2
      simp only [List.all_cons, Bool.and_eq_true] at ih2
      by_cases hc : c = '\n'
      · simp [hc, ih2.1, ih2.2]
      · simp [hc, List.all_cons, h.1, ih2.1, ih2.2]

/-- Mapping trim over all-whitespace lines and filtering empties yields
nothing. -/
theorem filter_map_trim_nil (ls : List (List Char))
    (h : ls.all (fun x => x.all isWs) = true) :
    (ls.map trimChars).filter (fun x => !x.isEmpty) = [] := by
  induction ls with
  | nil => rfl
  | cons x rest ih =>
    simp only [List.all_cons, Bool.and_eq_true] at h
    simp [List.filter_cons, trimChars_eq_nil_of_all x h.1, ih h.2]

/-- A blank (empty or all-whitespace) text normalizes to no lines. -/
theorem normLines_eq_nil_of_all_ws (l : List Char) (h : l.all isWs = true) :
    normLines l = [] := by
  unfold normLines
  exact filter_map_trim_nil _ (splitOnNl_all_ws l h)

/-- Normalized lines are never empty. -/
theorem ne_nil_of_mem_normLines {x : List Char} {l : List Char}
    (h : x ∈ normLines l) : x ≠ [] := by
  unfold normLines at h
  have hx := (List.mem_filter.mp h).2
  intro he
  subst he
  simp at hx

/-- `findSome?` over a list on which `f` always fails yields nothing. -/
theorem findSome?_eq_none_of_all {α β : Type} (f : α → Option β)
    (l : List α) (h : ∀ x ∈ l, f x = none) : l.findSome? f = none := by
  induction l with
  | nil => rfl
  | cons a rest ih =>
    have ha := h a (List.mem_cons_self a rest)
    simp [List.findSome?, ha, ih fun x hx => h x (List.mem_cons_of_mem a hx)]

/-- A `findSome?` success comes from some element of the list. -/
theorem exists_of_findSome?_eq_some {α β : Type} {f : α → Option β}
    {l : List α} {b : β} (h : l.findSome? f = some b) :
    ∃ a, a ∈ l ∧ f a = some b := by
  induction l with
  | nil => simp [List.findSome?] at h
  | cons a rest ih =>
    cases hfa : f a with
    | some c =>
      simp [List.findSome?, hfa] at h
      exact ⟨a, List.mem_cons_self a rest, by rw [hfa, h]⟩
    | none =>
      simp [List.findSome?, hfa] at h
      obtain ⟨x, hx, hfx⟩ := ih h
      exact ⟨x, List.mem_cons_of_mem a hx, hfx⟩

/-- `findSome?` skips a leading block on which `f` fails. -/
theorem findSome?_append_of_none {α β : Type} {f : α → Option β}
    {l1 l2 : List α} (h : ∀ x ∈ l1, f x = none) :
    (l1 ++ l2).findSome? f = l2.findSome? f := by
  induction l1 with
  | nil => rfl
  | cons a rest ih =>
    have ha := h a (List.mem_cons_self a rest)
    simp [List.findSome?, ha]
    exact ih fun x hx => h x (List.mem_cons_of_mem a hx)

/-- Every successfully parsed numeric token is non-negative. -/
theorem parsePrice_nonneg {tok : List Char} {p : ℤ}
    (h : parsePrice tok = some p) : 0 ≤ p := by
  simp only [parsePrice] at h
  split at h
  · split at h
    · injection h with h
      rw [← h]
      positivity
    · exact absurd h (by simp)
  · split at h
    · injection h with h
      rw [← h]
      positivity
    · exact absurd h (by simp)

/-- Every item produced by layout 1 has range-validated unit price and line
total. -/
theorem pattern1_spec {toks : List (List Char)} {it : LineItem}
    (h : pattern1 toks = some it) :
    priceOk it.unitPrice ∧ priceOk it.lineTotal := by
  simp only [pattern1] at h
  repeat' split at h
  all_goals simp_all
  obtain ⟨rfl⟩ := h
  rename_i hg
  exact ⟨hg.1, hg.2⟩

/-- Every item produced by layout 2 has a range-validated price, line total
equal to the price, and quantity 1. -/
theorem pattern2_spec {toks : List (List Char)} {it : LineItem}
    (h : pattern2 toks = some it) :
    priceOk it.unitPrice ∧ it.lineTotal = it.unitPrice ∧ it.quantity = 1 := by
  simp only [pattern2] at h
  repeat' split at h
  all_goals simp_all
  obtain ⟨rfl⟩ := h
  rename_i hg
  exact ⟨hg, rfl, rfl⟩

/-- Every item produced by layout 3 has a range-validated unit price and a
line total derived as quantity × unit price. -/
theorem pattern3_spec {toks : List (List Char)} {it : LineItem}
    (h : pattern3 toks = some it) :
    priceOk it.unitPrice ∧ it.lineTotal = (it.quantity : ℤ) * it.unitPrice := by
  simp only [pattern3] at h
  repeat' split at h
  all_goals simp_all
  obtain ⟨rfl⟩ := h
  rename_i hg
  exact ⟨hg, rfl⟩

/-- A matched line comes from one of the three layouts. -/
theorem parseItemLine_cases {line : List Char} {it : LineItem}
    (h : parseItemLine line = some it) :
    pattern1 (tokensOf line) = some it ∨
    pattern2 (tokensOf line) = some it ∨
    pattern3 (tokensOf line) = some it := by
  simp only [parseItemLine] at h
  split at h
  · exact Or.inl (by rename_i heq; rw [heq, h])
  · split at h
    · exact Or.inr (Or.inl (by rename_i heq; rw [heq, h]))
    · exact Or.inr (Or.inr h)

/-- Every matched item carries a range-validated unit price, and its line
total is either itself range-validated (parsed directly) or derived as
quantity × unit price. -/
theorem parseItemLine_price {line : List Char} {it : LineItem}
    (h : parseItemLine line = some it) :
    priceOk it.unitPrice ∧
      (priceOk it.lineTotal ∨ it.lineTotal = (it.quantity : ℤ) * it.unitPrice) := by
  rcases parseItemLine_cases h with h1 | h2 | h3
  · exact ⟨(pattern1_spec h1).1, Or.inl (pattern1_spec h1).2⟩
  · obtain ⟨ha, hb, _⟩ := pattern2_spec h2
    exact ⟨ha, Or.inl (hb ▸ ha)⟩
  · exact ⟨(pattern3_spec h3).1, Or.inr (pattern3_spec h3).2⟩

/-- Every matched item has a non-negative line total. -/
theorem parseItemLine_lineTotal_nonneg {line : List Char} {it : LineItem}
    (h : parseItemLine line = some it) : 0 ≤ it.lineTotal := by
  obtain ⟨hu, hlt | hlt⟩ := parseItemLine_price h
  · linarith [hlt.1]
  · rw [hlt]
    exact mul_nonneg (Int.natCast_nonneg _) (by linarith [hu.1])

/-- The sum of the line totals of parsed items is non-negative. -/
theorem sumTotals_parsed_nonneg (ls : List (List Char)) :
    0 ≤ sumTotals (ls.filterMap parseItemLine) := by
  unfold sumTotals
  apply List.sum_nonneg
  intro x hx
  simp only [List.mem_map] at hx
  obtain ⟨it, hit, rfl⟩ := hx
  simp only [List.mem_filterMap] at hit
  obtain ⟨line, _, hline⟩ := hit
  exact parseItemLine_lineTotal_nonneg hline

/-- Every extracted total is non-negative. -/
theorem extractTotal_nonneg {ls : List (List Char)} {t : ℤ}
    (h : extractTotal ls = some t) : 0 ≤ t := by
  obtain ⟨line, _, hline⟩ := exists_of_findSome?_eq_some h
  unfold extractLineTotal at hline
  split at hline
  · obtain ⟨tok, _, htok⟩ := exists_of_findSome?_eq_some hline
    exact parsePrice_nonneg htok
  · exact absurd hline (by simp)

/-- The merchant heuristic over normalized lines never yields an empty
name. -/
theorem merchantOf_ne_nil (l : List Char) :
    merchantOf (normLines l) ≠ [] := by
  unfold merchantOf
  split
  · simp [toChars]
  · rename_i m rest heq
    have hm : m ∈ ((normLines l).take 3).filter plausibleMerchant := by
      rw [heq]
      exact List.mem_cons_self m rest
    have hmem : m ∈ normLines l :=
      List.mem_of_mem_take (List.mem_filter.mp hm).1
    exact ne_nil_of_mem_normLines hmem

/-! ### Claim theorems -/

/-- C1: For every input string (including empty, whitespace-only, garbled,
or non-receipt text), the parse operation returns a ReceiptRecord value —
it is a total function into `ReceiptRecord`, with no error outcome in its
type — and every internal failure mode is absorbed into fallback data: the
result is either the hardcoded sample record or the normally assembled
record. -/
theorem parse_always_returns_record (text today : String) :
    parse_ocr_text_to_receipt text today = sampleReceipt today ∨
    parse_ocr_text_to_receipt text today =
      assembleRecord (normLines text.data) today := by
  unfold parse_ocr_text_to_receipt
  split
  · exact Or.inl rfl
  · split
    · exact Or.inl rfl
    · exact Or.inr rfl

/-- C2: If the input text is empty or consists only of whitespace, the
parse operation returns exactly the fixed hardcoded sample ReceiptRecord:
merchant "Sample Store", the two fixed sample items ($5.99 and $3.49), and
total $9.48 (948 cents). -/
theorem blank_input_yields_sample (text today : String)
    (h : text.data.all isWs = true) :
    parse_ocr_text_to_receipt text today =
      ⟨"Sample Store",
       [⟨"Sample Item 1", 1, 599, 599⟩, ⟨"Sample Item 2", 1, 349, 349⟩],
       948, today⟩ := by
  simp [parse_ocr_text_to_receipt, h, sampleReceipt]

/-- Witness for C2 at the whitespace-only input `"  \t\n "`. -/
theorem blank_input_yields_sample_witness :
    ("  \t\n ".data.all isWs = true) ∧
    parse_ocr_text_to_receipt "  \t\n " "2026-10-11" =
      ⟨"Sample Store",
       [⟨"Sample Item 1", 1, 599, 599⟩, ⟨"Sample Item 2", 1, 349, 349⟩],
       948, "2026-10-11"⟩ :=
  ⟨by decide, blank_input_yields_sample "  \t\n " "2026-10-11" (by decide)⟩

/-- C3: For every non-empty input string, the returned ReceiptRecord has a
total that is present (the `total` field always exists) and non-negative,
and a merchant string that is non-null (the `merchant` field always
exists) and non-empty. -/
theorem nonempty_input_invariants (text today : String) (_h : text ≠ "") :
    0 ≤ (parse_ocr_text_to_receipt text today).total ∧
    (parse_ocr_text_to_receipt text today).merchant ≠ "" := by
  unfold parse_ocr_text_to_receipt
  split
  · exact ⟨by norm_num [sampleReceipt], by simp [sampleReceipt]⟩
  · split
    · exact ⟨by norm_num [sampleReceipt], by simp [sampleReceipt]⟩
    · constructor
      · simp only [assembleRecord]
        cases he : extractTotal (normLines text.data) with
        | some t => simpa using extractTotal_nonneg he
        | none => simpa using sumTotals_parsed_nonneg (normLines text.data)
      · simp only [assembleRecord]
        intro hc
        exact merchantOf_ne_nil text.data
          (by simpa using congrArg String.data hc)

/-- Witness for C3 at the non-empty input `"Soda 1.99"`. -/
theorem nonempty_input_invariants_witness :
    0 ≤ (parse_ocr_text_to_receipt "Soda 1.99" "2026-10-11").total ∧
    (parse_ocr_text_to_receipt "Soda 1.99" "2026-10-11").merchant ≠ "" :=
  nonempty_input_invariants "Soda 1.99" "2026-10-11" (by decide)

/-- The line `"Grand Total $1,234.56"` of the C4 claim. -/
def grandTotalLine : List Char := toChars "Grand Total $1,234.56"

/-- Counterexample to C4 as stated: the input
`"TOTAL 5.00\nGrand Total $1,234.56"` contains the line
`"Grand Total $1,234.56"`, yet the extracted total is 500 cents ($5.00),
not 123456 cents ($1,234.56), because the earlier `"TOTAL 5.00"` line is
the first line matching a total marker and first match wins. -/
theorem grand_total_not_unconditional :
    grandTotalLine ∈ normLines (toChars "TOTAL 5.00\nGrand Total $1,234.56") ∧
    (parse_ocr_text_to_receipt "TOTAL 5.00\nGrand Total $1,234.56"
      "2026-10-11").total = 500 ∧ (500 : ℤ) ≠ 123456 :=
  ⟨by decide, by decide, by decide⟩

/-- C4 (amended): the total extractor scans lines in order for the
case-insensitive markers, takes the first matching line, and extracts its
trailing numeric value accepting thousands separators; for any input whose
normalized lines contain `"Grand Total $1,234.56"` with no earlier line
yielding a total, the extracted total is 123456 cents ($1,234.56)
regardless of the sum of parsed line items. -/
theorem grand_total_first_match (pre post : List (List Char))
    (text today : String)
    (hpre : ∀ line ∈ pre, extractLineTotal line = none)
    (hsplit : normLines text.data = pre ++ grandTotalLine :: post) :
    extractTotal (normLines text.data) = some 123456 ∧
    (parse_ocr_text_to_receipt text today).total = 123456 := by
  have hgt : extractLineTotal grandTotalLine = some 123456 := by decide
  have hext : extractTotal (normLines text.data) = some 123456 := by
    rw [hsplit]
    unfold extractTotal
    rw [findSome?_append_of_none hpre]
    simp [List.findSome?, hgt]
  have hnb : ¬(text.data.all isWs = true) := by
    intro hws
    have hnil := normLines_eq_nil_of_all_ws text.data hws
    rw [hsplit] at hnil
    simp at hnil
  refine ⟨hext, ?_⟩
  unfold parse_ocr_text_to_receipt
  rw [if_neg hnb, if_neg (by simp [hext])]
  simp [assembleRecord, hext]

/-- Witness for the amended C4 at the one-line input
`"Grand Total $1,234.56"`. -/
theorem grand_total_first_match_witness :
    extractTotal (normLines "Grand Total $1,234.56".data) = some 123456 ∧
    (parse_ocr_text_to_receipt "Grand Total $1,234.56" "2026-10-11").total
      = 123456 :=
  grand_total_first_match [] [] "Grand Total $1,234.56" "2026-10-11"
    (by simp) (by decide)

/-- C5: For every input whose normalized lines match no recognized total
marker but yield at least one parsed LineItem, the returned record's total
equals the arithmetic sum of the line totals of all parsed LineItems. -/
theorem no_total_marker_sum (text today : String)
    (hmark : ∀ line ∈ normLines text.data, isTotalLine line = false)
    (hitems : (normLines text.data).filterMap parseItemLine ≠ []) :
    (parse_ocr_text_to_receipt text today).total =
      sumTotals ((normLines text.data).filterMap parseItemLine) := by
  have hnone : extractTotal (normLines text.data) = none := by
    apply findSome?_eq_none_of_all
    intro x hx
    unfold extractLineTotal
    simp [hmark x hx]
  have hnb : ¬(text.data.all isWs = true) := by
    intro hws
    exact hitems (by rw [normLines_eq_nil_of_all_ws text.data hws]; rfl)
  have hcond : (((normLines text.data).filterMap parseItemLine).isEmpty &&
      (extractTotal (normLines text.data)).isNone) = false := by
    cases hl : (normLines text.data).filterMap parseItemLine with
    | nil => exact absurd hl hitems
    | cons a l => simp [hl]
  unfold parse_ocr_text_to_receipt
  rw [if_neg hnb, if_neg (by simp [hcond])]
  simp [assembleRecord, hnone]

/-- Witness for C5 at the input `"Soda 1.99"`, which has one parseable item
and no total-marker line. -/
theorem no_total_marker_sum_witness :
    (parse_ocr_text_to_receipt "Soda 1.99" "2026-10-11").total =
      sumTotals ((normLines "Soda 1.99".data).filterMap parseItemLine) :=
  no_total_marker_sum "Soda 1.99" "2026-10-11" (by decide) (by decide)

/-- C6: For every line, the item matcher tries the three layouts in the
fixed priority order (1: quantity name unit-price line-total; 2: name
price; 3: quantity x name price); the first layout that successfully
parses wins, the matcher reports the match of at most one pattern, and a
line matching none of the three yields no LineItem (and no error — the
result type is `Option`). -/
theorem item_pattern_priority (line : List Char) :
    (∀ it, pattern1 (tokensOf line) = some it → parseItemLine line = some it) ∧
    (pattern1 (tokensOf line) = none →
      ∀ it, pattern2 (tokensOf line) = some it →
        parseItemLine line = some it) ∧
    (pattern1 (tokensOf line) = none → pattern2 (tokensOf line) = none →
      parseItemLine line = pattern3 (tokensOf line)) ∧
    (pattern1 (tokensOf line) = none → pattern2 (tokensOf line) = none →
      pattern3 (tokensOf line) = none → parseItemLine line = none) := by
  refine ⟨?_, ?_, ?_, ?_⟩
  · intro it h
    simp [parseItemLine, h]
  · intro h1 it h
    simp [parseItemLine, h1, h]
  · intro h1 h2
    simp [parseItemLine, h1, h2]
  · intro h1 h2 h3
    simp [parseItemLine, h1, h2, h3]

/-- Witness for C6 at the line `"2 x Soda 1.99"`: layouts 1 and 2 fail,
layout 3 produces quantity 2, name "Soda", line total 398 cents. -/
theorem item_pattern_priority_witness :
    parseItemLine (toChars "2 x Soda 1.99") = some ⟨"Soda", 2, 199, 398⟩ :=
  ((item_pattern_priority (toChars "2 x Soda 1.99")).2.2.1
    (by decide) (by decide)).trans (by decide)

/-- C7: Every candidate whose parsed unit price or parsed line total lies
outside [0.10, 500.00] (10 to 50000 cents) is treated as not a match, so
every produced LineItem has a range-validated unit price, and its line
total is either itself range-validated (when parsed directly) or derived
as quantity × unit price (when not parsed). -/
theorem out_of_range_price_rejected (line : List Char) (it : LineItem)
    (h : parseItemLine line = some it) :
    priceOk it.unitPrice ∧
      (priceOk it.lineTotal ∨
        it.lineTotal = (it.quantity : ℤ) * it.unitPrice) :=
  parseItemLine_price h

/-- Witness for C7 at the line `"Soda 1.99"`. -/
theorem out_of_range_price_rejected_witness :
    priceOk ((⟨"Soda", 1, 199, 199⟩ : LineItem)).unitPrice ∧
      (priceOk ((⟨"Soda", 1, 199, 199⟩ : LineItem)).lineTotal ∨
        ((⟨"Soda", 1, 199, 199⟩ : LineItem)).lineTotal =
          (((⟨"Soda", 1, 199, 199⟩ : LineItem)).quantity : ℤ) *
            ((⟨"Soda", 1, 199, 199⟩ : LineItem)).unitPrice) :=
  out_of_range_price_rejected (toChars "Soda 1.99") ⟨"Soda", 1, 199, 199⟩
    (by decide)

/-- C8: The parse operation is deterministic: two invocations on the same
input string with the same current date return identical ReceiptRecords —
the embedding is a pure function of its two arguments. -/
theorem parse_deterministic (s today : String) :
    parse_ocr_text_to_receipt s today = parse_ocr_text_to_receipt s today :=
  rfl

/-- C9: Confirming a name edit (Enter in the name input, or the Save
button) with an empty name input sets the profile name to "John Doe"
rather than the empty string; with a non-empty input it sets the name to
exactly that input. -/
theorem name_edit_default (s : ProfilePageState) :
    (s.nameInput = "" →
       (handleKeyDown EditKey.enter s).profile.name = "John Doe" ∧
       (saveClick s).profile.name = "John Doe") ∧
    (s.nameInput ≠ "" →
       (handleKeyDown EditKey.enter s).profile.name = s.nameInput ∧
       (saveClick s).profile.name = s.nameInput) := by
  constructor
  · intro h
    simp [handleKeyDown, saveClick, h]
  · intro h
    simp [handleKeyDown, saveClick, h]

/-- Witness for C9: pressing Enter with an empty input over the mock
profile yields the name "John Doe". -/
theorem name_edit_default_witness :
    (handleKeyDown EditKey.enter ⟨mockProfile, true, ""⟩).profile.name =
      "John Doe" :=
  ((name_edit_default ⟨mockProfile, true, ""⟩).1 rfl).1

/-- A world whose `largeText` localStorage entry is absent and whose
document classes disagree with the component state. -/
def unsyncedWorld : BrowserWorld :=
  ⟨⟨false, false⟩, none, some "false", ⟨true, true⟩⟩

/-- Counterexample to C10 as stated: from `unsyncedWorld`, toggling large
text twice leaves the component state restored but sets the localStorage
entry to `some "false"` (it was absent) and the document classes to
`⟨false, false⟩` (they were `⟨true, true⟩`) — so the double toggle does
not return the localStorage entry and the applied document classes to
their original values from an arbitrary state. -/
theorem toggle_twice_not_restoring :
    (toggleLargeText (toggleLargeText unsyncedWorld)).lsLargeText =
      some "false" ∧
    unsyncedWorld.lsLargeText = none ∧
    (toggleLargeText (toggleLargeText unsyncedWorld)).dom = ⟨false, false⟩ ∧
    unsyncedWorld.dom = ⟨true, true⟩ :=
  ⟨rfl, rfl, rfl, rfl⟩

/-- C10 (amended): each toggle keeps the stored localStorage entry equal to
the string form of the new component state; and from any synchronized
state — one whose localStorage entries and document classes already agree
with the component state, as holds after initialization and after every
toggle — applying the same toggle twice returns the component state, the
localStorage entries, and the applied document classes to their original
values. -/
theorem toggle_storage_sync (w : BrowserWorld) :
    ((toggleLargeText w).lsLargeText =
        some (stringOfBool (toggleLargeText w).comp.largeText) ∧
      (toggleDarkMode w).lsDarkMode =
        some (stringOfBool (toggleDarkMode w).comp.darkMode)) ∧
    (synced w →
      toggleLargeText (toggleLargeText w) = w ∧
      toggleDarkMode (toggleDarkMode w) = w) := by
  refine ⟨⟨rfl, rfl⟩, ?_⟩
  intro hs
  obtain ⟨h1, h2, h3⟩ := hs
  cases w with
  | mk comp ls1 ls2 dom =>
    cases comp with
    | mk lt dm =>
      simp_all [toggleLargeText, toggleDarkMode, applyPreferences, synced,
        stringOfBool]

/-- A synchronized world for the C10 witness. -/
def syncedWorld : BrowserWorld :=
  ⟨⟨false, false⟩, some "false", some "false", ⟨false, false⟩⟩

/-- Witness for the amended C10: double toggles restore `syncedWorld`
exactly. -/
theorem toggle_storage_sync_witness :
    toggleLargeText (toggleLargeText syncedWorld) = syncedWorld ∧
    toggleDarkMode (toggleDarkMode syncedWorld) = syncedWorld :=
  (toggle_storage_sync syncedWorld).2 ⟨rfl, rfl, rfl⟩
